import Mathlib

/-!
Shallow embedding of `src/spend_authority_signature.rs`: the in-circuit
spend-authority (RedJubjub-style) signature verification gadget.

The repository's own code is the single `synthesize` function of
`VerifySpendAuthoritySignatureDemo` (plus the two witness structs).  All
curve / field / hash primitives it calls (`EdwardsPoint::witness`,
`assert_not_small_order`, `repr`, `negate`, `mul`, `add`, `double`,
`inputize`, `u8_vec_into_boolean_vec_le`, `field_into_boolean_vec_le`,
`blake2b`, `pack_into_inputs`) live in the external `hi_crypto` crate and
are consumed through the contracts of spec §2–§6.  They are embedded here
as an abstract parameter bundle `GadgetParams`, and each gadget call is
recorded as one `ShapeEvent` (its fixed constraint/variable block,
parametrized by the structural sizes it receives) plus, where the contract
makes satisfiability depend on the bound values, a semantic `Constraint`.
In-circuit optional values (`Boolean`s / points whose assignment is absent
in SHAPE mode) are embedded as `Option`-valued data.
-/

namespace SpendAuth

/-- Rust `Vec::resize(n, v)`: pad with `v` up to length `n`, or truncate
down to length `n` (`input_bits.resize(256/512/768, Boolean::Constant(false))`
in the source). -/
def listResize {α : Type} (l : List α) (n : Nat) (v : α) : List α :=
  l.take n ++ List.replicate (n - l.length) v

/-- One byte expanded least-significant-bit first
(per byte, as `u8_vec_into_boolean_vec_le` does; spec §4.2). -/
def byteToBitsLE (b : Nat) : List Bool :=
  (List.range 8).map fun i => b.testBit i

/-- A byte sequence expanded bit-by-bit LSB-first per byte. -/
def bytesToBitsLE (msg : List Nat) : List Bool :=
  msg.flatMap byteToBitsLE

/-- Extract the values of a list of in-circuit booleans; `some` exactly when
every bit has an assignment. -/
def allSome {α : Type} : List (Option α) → Option (List α)
  | [] => some []
  | none :: _ => none
  | some a :: rest => (allSome rest).map (a :: ·)

/-- Contracts of the external curve/field/hash gadget libraries consumed by
the circuit (spec §2 components 1–4 and §6): abstract point and scalar
operations, fixed serialization widths, a fixed-output-length hash, and the
multipack packing function.  `Point`, `Scalar`, `F` play the roles of
`edwards::Point<E, Unknown>`, `E::Fs` and the base field `E::Fr`. -/
structure GadgetParams (Point Scalar F : Type) where
  /-- curve membership (enforced by `EdwardsPoint::witness`) -/
  isOnCurve : Point → Bool
  /-- membership in the small cofactor-order torsion subgroup
  (refuted by `assert_not_small_order`) -/
  isSmallOrder : Point → Bool
  /-- `EdwardsPoint::negate` -/
  negate : Point → Point
  /-- `EdwardsPoint::add` -/
  add : Point → Point → Point
  /-- `EdwardsPoint::double` -/
  double : Point → Point
  /-- `EdwardsPoint::mul` by a little-endian bit sequence (supports
  out-of-range bit lengths, spec §4.4) -/
  mulBits : Point → List Bool → Point
  /-- x-coordinate (`get_x`) -/
  px : Point → F
  /-- y-coordinate (`get_y`) -/
  py : Point → F
  /-- `EdwardsPoint::repr`: canonical little-endian bit serialization -/
  reprPoint : Point → List Bool
  /-- the fixed bit width `repr` produces for every point -/
  pointReprLen : Nat
  reprPoint_len : ∀ p, (reprPoint p).length = pointReprLen
  /-- `field_into_boolean_vec_le`: little-endian bit serialization of a scalar -/
  reprScalar : Scalar → List Bool
  /-- the fixed bit width a scalar serializes to -/
  scalarReprLen : Nat
  reprScalar_len : ∀ s, (reprScalar s).length = scalarReprLen
  /-- the native hash underlying the `blake2b` gadget: bit sequence and
  personalization bytes to output bit sequence -/
  hash : List Bool → List Nat → List Bool
  /-- the fixed output bit length of the hash gadget (spec §4.3: the gadget
  has a fixed-length output; 512 for the blake2b instance) -/
  hashOutLen : Nat
  hash_len : ∀ input pers, (hash input pers).length = hashOutLen
  /-- `multipack`: pack one chunk of little-endian bits into a field element -/
  packBits : List Bool → F
  /-- chunk size used by `pack_into_inputs` (`Fr::CAPACITY`) -/
  packCapacity : Nat

/-- `SpendAuthoritySignature` (source lines 34–38): optional `r` point and
optional `s` scalar; `None` in SHAPE mode. -/
structure SpendAuthoritySignature (Point Scalar : Type) where
  r : Option Point
  s : Option Scalar

/-- `VerifySpendAuthoritySignatureDemo` (source lines 41–48): the circuit's
witness record.  The read-only `params: &E::Params` field is carried
separately as the `GadgetParams` argument of `synthesize`. -/
structure VerifySpendAuthoritySignatureDemo (Point Scalar : Type) where
  msg_hash : Option (List Nat)
  signature : SpendAuthoritySignature Point Scalar
  public_key : Option Point
  generator : Option Point

/-- One gadget invocation in the emitted circuit, labelled with the source's
`cs.namespace` string and the structural sizes handed to the gadget.  Each
event stands for the fixed block of variables and constraints that gadget
allocates; two circuits have the same shape exactly when their event traces
are equal. -/
inductive ShapeEvent where
  | witnessPoint (label : String)
  | assertNotSmallOrder (label : String)
  | inputizePoint (label : String)
  | reprPoint (label : String) (bits : Nat)
  | msgBits (label : String) (bits : Nat)
  | hashEv (label : String) (inputBits : Nat) (pers : List Nat)
  | scalarBits (label : String) (bits : Nat)
  | packInputs (label : String) (bits : Nat)
  | negatePoint (label : String)
  | mulPoint (label : String) (bits : Nat)
  | addPoint (label : String)
  | doublePoint (label : String)
  | enforceC (label : String)
deriving DecidableEq, Repr

/-- A satisfiability-relevant constraint over the bound values: curve
membership from `EdwardsPoint::witness`, the small-order refutation from
`assert_not_small_order`, and a coordinate-equals-constant constraint from
a final `cs.enforce`.  The value is `none` when the variable has no
assignment (SHAPE mode). -/
inductive Constraint (Point F : Type) where
  | onCurve (p : Option Point)
  | notSmallOrder (p : Option Point)
  | eqConst (v : Option F) (c : F)
deriving DecidableEq, Repr

/-- `SynthesisError`-or-panic outcomes of circuit construction.  The only
failure the entry point can produce is the structural hash-output-length
mismatch (`assert_eq!(h_star.len(), 512)`, source line 79), which is fatal
and witness-independent (spec §7 class 1). -/
inductive Failure where
  | structural
deriving DecidableEq, Repr

/-- Everything `synthesize` emits: the gadget-call trace (circuit shape),
the value-level constraints, the public input vector (values optional in
SHAPE mode), and the challenge-hash output bits `h_star`. -/
structure SynthResult (Point F : Type) where
  shape : List ShapeEvent
  constraints : List (Constraint Point F)
  pubInputs : List (Option F)
  hstar : List (Option Bool)

/-- The personalization tag of the challenge hash: the byte string literal
`b"Zcash_RedJubjubH"` of source line 78. -/
def persBytes : List Nat :=
  "Zcash_RedJubjubH".toList.map Char.toNat

/-- Value of an in-circuit point allocated by `EdwardsPoint::witness`. -/
def cwitness {Point : Type} (p : Option Point) : Option Point := p

/-- `EdwardsPoint::repr` lifted to in-circuit points: with an assignment,
the serialization's bits; unassigned, the gadget's fixed-width block of
unassigned bits. -/
def creprPoint {Point Scalar F : Type} (P : GadgetParams Point Scalar F) :
    Option Point → List (Option Bool)
  | some p => (P.reprPoint p).map some
  | none => List.replicate P.pointReprLen none

/-- `field_into_boolean_vec_le` lifted to in-circuit scalars. -/
def creprScalar {Point Scalar F : Type} (P : GadgetParams Point Scalar F) :
    Option Scalar → List (Option Bool)
  | some s => (P.reprScalar s).map some
  | none => List.replicate P.scalarReprLen none

/-- Modelled from the spec: `u8_vec_into_boolean_vec_le` (external
`hi_crypto` gadget, not under `src/`).  With a bound byte vector it
allocates one boolean per bit, LSB-first per byte (spec §4.2); unbound it
allocates the fixed-width 256-bit message block of the three-block 768-bit
preimage layout (spec §6 "Fixed bit widths"). -/
def cMsgBits : Option (List Nat) → List (Option Bool)
  | some bytes => (bytesToBitsLE bytes).map some
  | none => List.replicate 256 none

/-- The `blake2b` gadget lifted to in-circuit bits: fixed-length output,
with values present exactly when every input bit is assigned. -/
def chash {Point Scalar F : Type} (P : GadgetParams Point Scalar F)
    (input : List (Option Bool)) (pers : List Nat) : List (Option Bool) :=
  match allSome input with
  | some bs => (P.hash bs pers).map some
  | none => List.replicate P.hashOutLen none

/-- `EdwardsPoint::negate` lifted. -/
def cneg {Point Scalar F : Type} (P : GadgetParams Point Scalar F) :
    Option Point → Option Point :=
  Option.map P.negate

/-- `EdwardsPoint::add` lifted. -/
def cadd {Point Scalar F : Type} (P : GadgetParams Point Scalar F) :
    Option Point → Option Point → Option Point
  | some a, some b => some (P.add a b)
  | _, _ => none

/-- `EdwardsPoint::double` lifted. -/
def cdouble {Point Scalar F : Type} (P : GadgetParams Point Scalar F) :
    Option Point → Option Point :=
  Option.map P.double

/-- `EdwardsPoint::mul` lifted: defined when the point and every exponent
bit are assigned. -/
def cmul {Point Scalar F : Type} (P : GadgetParams Point Scalar F)
    (p : Option Point) (bits : List (Option Bool)) : Option Point :=
  match p, allSome bits with
  | some q, some bs => some (P.mulBits q bs)
  | _, _ => none

/-- Value of one packed public input produced by `pack_into_inputs`. -/
def cpack {Point Scalar F : Type} (P : GadgetParams Point Scalar F)
    (bits : List (Option Bool)) : Option F :=
  (allSome bits).map P.packBits

/-- x-coordinate of an in-circuit point. -/
def cx {Point Scalar F : Type} (P : GadgetParams Point Scalar F) :
    Option Point → Option F :=
  Option.map P.px

/-- y-coordinate of an in-circuit point. -/
def cy {Point Scalar F : Type} (P : GadgetParams Point Scalar F) :
    Option Point → Option F :=
  Option.map P.py

/-- Rust slice `chunks(n)`: split into consecutive chunks of `n`, the last
possibly shorter; the empty list yields no chunks. -/
def chunkList {α : Type} (n : Nat) (l : List α) : List (List α) :=
  if l.isEmpty then []
  else if h : n = 0 then [l]
  else l.take n :: chunkList n (l.drop n)
termination_by l.length
decreasing_by
  simp only [List.isEmpty_iff] at *
  simp only [List.length_drop]
  have hl : 0 < l.length := List.length_pos.mpr (by assumption)
  omega

/-- The hash-input buffer of source lines 62–76: start empty, append `r`'s
repr and `resize(256)`, append `vk`'s repr and `resize(512)`, append the
message bits and `resize(768)`, padding with `Boolean::Constant(false)`. -/
def hashInput {Point Scalar F : Type} (P : GadgetParams Point Scalar F)
    (r vk : Option Point) (msg : Option (List Nat)) : List (Option Bool) :=
  listResize
    (listResize
      (listResize (creprPoint P r) 256 (some false) ++ creprPoint P vk)
      512 (some false)
     ++ cMsgBits msg)
    768 (some false)

/-- The gadget-call trace of `synthesize`, one event per gadget invocation
in source order with the source's namespace labels (lines 56–108). -/
def shapeTrace {Point Scalar F : Type} (P : GadgetParams Point Scalar F)
    (self : VerifySpendAuthoritySignatureDemo Point Scalar) : List ShapeEvent :=
  [.witnessPoint "vk",
   .assertNotSmallOrder "vk not small order",
   .witnessPoint "r",
   .inputizePoint "inputize signature.r",
   .reprPoint "r unpack to bits" (creprPoint P self.signature.r).length,
   .reprPoint "vk unpack to bits" (creprPoint P self.public_key).length,
   .msgBits "message unpack into bits" (cMsgBits self.msg_hash).length,
   .hashEv "blake2b hash"
     (hashInput P self.signature.r self.public_key self.msg_hash).length
     persBytes,
   .scalarBits "scalar into bits" (creprScalar P self.signature.s).length,
   .packInputs "signature.s inputize" (creprScalar P self.signature.s).length,
   .witnessPoint "generator witness",
   .negatePoint "generator negate",
   .mulPoint "hstar * vk"
     (chash P (hashInput P self.signature.r self.public_key self.msg_hash)
       persBytes).length,
   .mulPoint "-s * generator" (creprScalar P self.signature.s).length,
   .addPoint "signature add1",
   .addPoint "signature add2",
   .doublePoint "sig double",
   .doublePoint "sig times 4",
   .doublePoint "sig times 8",
   .enforceC "result to zero point x",
   .enforceC "result to zero point y"]

/-- `Circuit::synthesize` (source lines 51–111), transcribed call by call:
witness `vk` and assert it not small order; witness `r` and inputize it;
assemble the 768-bit hash buffer from `r`'s bits, `vk`'s bits and the
message bits; hash it under the fixed personalization
(`assert_eq!(h_star.len(), 512)` is the structural failure exit); serialize
`s` and pack it into the public inputs; witness and negate the generator;
combine `h_star·vk + (−G)·s + r`; double the result three times; and
enforce the final x-coordinate equal `0` and y-coordinate equal `1`. -/
def synthesize {Point Scalar F : Type} [Zero F] [One F]
    (P : GadgetParams Point Scalar F)
    (self : VerifySpendAuthoritySignatureDemo Point Scalar) :
    Except Failure (SynthResult Point F) :=
  let vk := cwitness self.public_key
  let r := cwitness self.signature.r
  let hstar := chash P (hashInput P r vk self.msg_hash) persBytes
  if hstar.length = 512 then
    let sBits := creprScalar P self.signature.s
    let generator := cneg P (cwitness self.generator)
    let z :=
      cdouble P (cdouble P (cdouble P
        (cadd P (cadd P (cmul P vk hstar) (cmul P generator sBits)) r)))
    Except.ok
      { shape := shapeTrace P self
        constraints :=
          [.onCurve vk, .notSmallOrder vk, .onCurve r,
           .onCurve (cwitness self.generator),
           .eqConst (cx P z) 0, .eqConst (cy P z) 1]
        pubInputs :=
          [cx P r, cy P r] ++ (chunkList P.packCapacity sBits).map (cpack P)
        hstar := hstar }
  else Except.error Failure.structural

/-- Truth of one constraint under the bound assignment; an unassigned
variable satisfies nothing. -/
def Constraint.holds {Point Scalar F : Type} [DecidableEq F]
    (P : GadgetParams Point Scalar F) : Constraint Point F → Bool
  | .onCurve (some p) => P.isOnCurve p
  | .onCurve none => false
  | .notSmallOrder (some p) => !P.isSmallOrder p
  | .notSmallOrder none => false
  | .eqConst (some a) c => a = c
  | .eqConst none _ => false

/-- A bound circuit's constraint set is satisfiable exactly when every
emitted constraint holds under the (fully determined) assignment. -/
def satisfiable {Point Scalar F : Type} [DecidableEq F]
    (P : GadgetParams Point Scalar F) (res : SynthResult Point F) : Bool :=
  res.constraints.all (Constraint.holds P)

/-- A fully bound witness record (BOUND mode): every field present. -/
def boundWitness {Point Scalar : Type} (rv : Point) (sv : Scalar)
    (vkv genv : Point) (msg : List Nat) :
    VerifySpendAuthoritySignatureDemo Point Scalar :=
  ⟨some msg, ⟨some rv, some sv⟩, some vkv, some genv⟩

/-- The all-absent witness record (SHAPE mode, used for parameter
generation in the source's test, lines 139–145). -/
def noneWitness {Point Scalar : Type} :
    VerifySpendAuthoritySignatureDemo Point Scalar :=
  ⟨none, ⟨none, none⟩, none, none⟩

/-- The value-level hash-input buffer the source assembles for a fully
bound witness: `r`'s repr resized to 256 bits, `vk`'s repr appended and
resized to 512, the message bits appended and resized to 768 (`Vec::resize`
pads short buffers and truncates long ones). -/
def sourcePreimage {Point Scalar F : Type} (P : GadgetParams Point Scalar F)
    (rv vkv : Point) (msg : List Nat) : List Bool :=
  listResize
    (listResize (listResize (P.reprPoint rv) 256 false ++ P.reprPoint vkv)
      512 false
     ++ bytesToBitsLE msg)
    768 false

/-- Pure zero-padding of a bit buffer up to `n` bits (never truncates). -/
def padTo (l : List Bool) (n : Nat) : List Bool :=
  l ++ List.replicate (n - l.length) false

/-- Modelled from the spec: the challenge-hash preimage as the spec's words
describe it — `r`'s bits zero-padded to 256, `vk`'s bits appended and the
buffer zero-padded to 512, the message bits appended and the buffer
zero-padded to 768, with no truncation anywhere.  This is the comparison
definition for the refinement claim about the buffer layout; the code's own
construction is `sourcePreimage`. -/
def specPreimage {Point Scalar F : Type} (P : GadgetParams Point Scalar F)
    (rv vkv : Point) (msg : List Nat) : List Bool :=
  padTo (padTo (padTo (P.reprPoint rv) 256 ++ P.reprPoint vkv) 512
         ++ bytesToBitsLE msg)
    768

/-- The challenge hash `h_star` of a fully bound witness: the native hash
of the assembled 768-bit buffer under the fixed personalization. -/
def hstarBound {Point Scalar F : Type} (P : GadgetParams Point Scalar F)
    (rv vkv : Point) (msg : List Nat) : List Bool :=
  P.hash (sourcePreimage P rv vkv msg) persBytes

/-- The combined point `h_star·vk + (−G)·s + r` of source lines 84–90,
evaluated on a fully bound witness in the source's fixed association order. -/
def combinedPoint {Point Scalar F : Type} (P : GadgetParams Point Scalar F)
    (rv : Point) (sv : Scalar) (vkv genv : Point) (msg : List Nat) : Point :=
  P.add
    (P.add (P.mulBits vkv (hstarBound P rv vkv msg))
      (P.mulBits (P.negate genv) (P.reprScalar sv)))
    rv

/-- The combined point after the three successive doublings of source
lines 92–94 (cofactor clearing). -/
def clearedPoint {Point Scalar F : Type} (P : GadgetParams Point Scalar F)
    (rv : Point) (sv : Scalar) (vkv genv : Point) (msg : List Nat) : Point :=
  P.double (P.double (P.double (combinedPoint P rv sv vkv genv msg)))

/-- `n`-fold iterated addition: `addIter n p` is the sum of `n + 1` copies
of `p` under the gadget's addition, left-associated as
`p + (p + (… + p))`. -/
def addIter {Point Scalar F : Type} (P : GadgetParams Point Scalar F) :
    Nat → Point → Point
  | 0, p => p
  | n + 1, p => P.add p (addIter P n p)

/-- The gadget-call trace as a function of the one structural quantity that
can vary with the witness: the number of message bits allocated. -/
def shapeWith {Point Scalar F : Type} (P : GadgetParams Point Scalar F)
    (m : Nat) : List ShapeEvent :=
  [.witnessPoint "vk",
   .assertNotSmallOrder "vk not small order",
   .witnessPoint "r",
   .inputizePoint "inputize signature.r",
   .reprPoint "r unpack to bits" P.pointReprLen,
   .reprPoint "vk unpack to bits" P.pointReprLen,
   .msgBits "message unpack into bits" m,
   .hashEv "blake2b hash" 768 persBytes,
   .scalarBits "scalar into bits" P.scalarReprLen,
   .packInputs "signature.s inputize" P.scalarReprLen,
   .witnessPoint "generator witness",
   .negatePoint "generator negate",
   .mulPoint "hstar * vk" 512,
   .mulPoint "-s * generator" P.scalarReprLen,
   .addPoint "signature add1",
   .addPoint "signature add2",
   .doublePoint "sig double",
   .doublePoint "sig times 4",
   .doublePoint "sig times 8",
   .enforceC "result to zero point x",
   .enforceC "result to zero point y"]

/-- The full emission of `synthesize` on a fully bound witness, in closed
form. -/
def boundResult {Point Scalar F : Type} [Zero F] [One F]
    (P : GadgetParams Point Scalar F) (rv : Point) (sv : Scalar)
    (vkv genv : Point) (msg : List Nat) : SynthResult Point F :=
  { shape := shapeWith P (8 * msg.length)
    constraints :=
      [.onCurve (some vkv), .notSmallOrder (some vkv), .onCurve (some rv),
       .onCurve (some genv),
       .eqConst (some (P.px (clearedPoint P rv sv vkv genv msg))) 0,
       .eqConst (some (P.py (clearedPoint P rv sv vkv genv msg))) 1]
    pubInputs :=
      [some (P.px rv), some (P.py rv)] ++
        (chunkList P.packCapacity ((P.reprScalar sv).map some)).map (cpack P)
    hstar := (hstarBound P rv vkv msg).map some }

/-- The full emission of `synthesize` on the all-absent witness record, in
closed form: the same trace with the fixed 256-bit message block, and every
value unassigned. -/
def noneResult {Point Scalar F : Type} [Zero F] [One F]
    (P : GadgetParams Point Scalar F) : SynthResult Point F :=
  { shape := shapeWith P 256
    constraints :=
      [.onCurve none, .notSmallOrder none, .onCurve none, .onCurve none,
       .eqConst none 0, .eqConst none 1]
    pubInputs :=
      [none, none] ++
        (chunkList P.packCapacity
          (List.replicate P.scalarReprLen (none : Option Bool))).map (cpack P)
    hstar := chash P (hashInput P none none none) persBytes }

/-- Whether a trace event is the small-order assertion. -/
def ShapeEvent.isAssertNSO : ShapeEvent → Bool
  | .assertNotSmallOrder _ => true
  | _ => false

/-- Whether a trace event is a point doubling. -/
def ShapeEvent.isDouble : ShapeEvent → Bool
  | .doublePoint _ => true
  | _ => false

/-- Whether a trace event is a raw `cs.enforce` equality constraint. -/
def ShapeEvent.isEnforce : ShapeEvent → Bool
  | .enforceC _ => true
  | _ => false

/-- Whether a trace event is a hash-gadget invocation. -/
def ShapeEvent.isHash : ShapeEvent → Bool
  | .hashEv _ _ _ => true
  | _ => false

/-- A small concrete instantiation of the gadget contracts, used to
evaluate the development on explicit inputs: points are coordinate pairs
over `Fin 5`, the small-order points are exactly `(4, 4)`, and all
operations are simple total functions respecting the declared widths. -/
def toyP : GadgetParams (Fin 5 × Fin 5) Bool (Fin 5) :=
  { isOnCurve := fun _ => true
    isSmallOrder := fun p => decide (p = (4, 4))
    negate := id
    add := fun p _ => p
    double := fun p => p
    mulBits := fun p _ => p
    px := Prod.fst
    py := Prod.snd
    reprPoint := fun _ => List.replicate 256 false
    pointReprLen := 256
    reprPoint_len := fun _ => List.length_replicate 256 false
    reprScalar := fun _ => List.replicate 4 false
    scalarReprLen := 4
    reprScalar_len := fun _ => List.length_replicate 4 false
    hash := fun _ _ => List.replicate 512 false
    hashOutLen := 512
    hash_len := fun _ _ => List.length_replicate 512 false
    packBits := fun _ => 0
    packCapacity := 8 }

/-- A second concrete instantiation whose hash output distinguishes
whether the preimage buffer has exactly 768 bits. -/
def toyP2 : GadgetParams (Fin 5 × Fin 5) Bool (Fin 5) :=
  { toyP with
    hash := fun input _ => List.replicate 512 (decide (input.length = 768))
    hash_len := fun _ _ => List.length_replicate 512 _ }

/-- A sample on-curve point of the toy instantiation. -/
def pA : Fin 5 × Fin 5 := (2, 3)

/-- A sample public-key point whose coordinates happen to be the identity's. -/
def pVK : Fin 5 × Fin 5 := (0, 1)

/-- A sample generator point of the toy instantiation. -/
def pG : Fin 5 × Fin 5 := (1, 1)

/-- The designated small-order point of the toy instantiation. -/
def pSO : Fin 5 × Fin 5 := (4, 4)

/-! ### Helper lemmas about the list primitives -/

@[simp]
theorem listResize_length {α : Type} (l : List α) (n : Nat) (v : α) :
    (listResize l n v).length = n := by
  simp only [listResize, List.length_append, List.length_take,
    List.length_replicate]
  omega

theorem listResize_map {α β : Type} (f : α → β) (l : List α) (n : Nat)
    (v : α) : listResize (l.map f) n (f v) = (listResize l n v).map f := by
  simp [listResize, List.map_take]

@[simp]
theorem allSome_map_some {α : Type} (l : List α) :
    allSome (l.map some) = some l := by
  induction l with
  | nil => rfl
  | cons a rest ih => simp [allSome, ih]

theorem chash_map_some {Point Scalar F : Type}
    (P : GadgetParams Point Scalar F) (l : List Bool) (pers : List Nat) :
    chash P (l.map some) pers = (P.hash l pers).map some := by
  simp [chash]

@[simp]
theorem chash_length {Point Scalar F : Type}
    (P : GadgetParams Point Scalar F) (input : List (Option Bool))
    (pers : List Nat) : (chash P input pers).length = P.hashOutLen := by
  unfold chash
  cases allSome input <;> simp [P.hash_len]

@[simp]
theorem creprPoint_length {Point Scalar F : Type}
    (P : GadgetParams Point Scalar F) (p : Option Point) :
    (creprPoint P p).length = P.pointReprLen := by
  cases p <;> simp [creprPoint, P.reprPoint_len]

@[simp]
theorem creprScalar_length {Point Scalar F : Type}
    (P : GadgetParams Point Scalar F) (s : Option Scalar) :
    (creprScalar P s).length = P.scalarReprLen := by
  cases s <;> simp [creprScalar, P.reprScalar_len]

@[simp]
theorem bytesToBitsLE_length (msg : List Nat) :
    (bytesToBitsLE msg).length = 8 * msg.length := by
  induction msg with
  | nil => rfl
  | cons b rest ih =>
    simp only [bytesToBitsLE, List.flatMap_cons, List.length_append,
      List.length_cons] at *
    simp [byteToBitsLE, ih]
    omega

theorem bytesToBitsLE_take (msg : List Nat) (k : Nat) :
    (bytesToBitsLE msg).take (8 * k) = bytesToBitsLE (msg.take k) := by
  induction msg generalizing k with
  | nil => simp [bytesToBitsLE]
  | cons b rest ih =>
    cases k with
    | zero => simp [bytesToBitsLE]
    | succ k =>
      have hb : (byteToBitsLE b).length = 8 := by simp [byteToBitsLE]
      simp only [bytesToBitsLE, List.flatMap_cons, List.take_succ_cons]
      rw [List.take_append_eq_append_take, hb]
      have h8 : 8 * (k + 1) = 8 + 8 * k := by omega
      rw [h8]
      simp only [Nat.add_sub_cancel_left]
      rw [List.take_of_length_le (by omega), ← bytesToBitsLE, ih]
      rfl

theorem listResize_append {α : Type} (a b : List α) (n m : Nat) (v : α)
    (ha : a.length = m) (hmn : m ≤ n) :
    listResize (a ++ b) n v = a ++ listResize b (n - m) v := by
  have h1 : a.length ≤ n := by omega
  have h2 : n - (a ++ b).length = n - m - b.length := by
    simp only [List.length_append]
    omega
  unfold listResize
  rw [List.take_append_eq_append_take, List.take_of_length_le h1, ha, h2,
    List.append_assoc]

theorem chunkList_nil {α : Type} (n : Nat) : chunkList n ([] : List α) = [] := by
  rw [chunkList]
  rfl

theorem chunkList_eq_single {α : Type} (n : Nat) (l : List α)
    (h1 : l ≠ []) (h2 : l.length ≤ n) : chunkList n l = [l] := by
  have hn : n ≠ 0 := by
    have := List.length_pos.mpr h1
    omega
  rw [chunkList]
  simp only [List.isEmpty_iff, h1, if_false, hn, dif_neg, not_false_iff]
  rw [List.take_of_length_le h2, List.drop_eq_nil_of_le h2, chunkList_nil]

theorem listResize_map_some {α : Type} (l : List α) (n : Nat) (v : α) :
    listResize (l.map some) n (some v) = (listResize l n v).map some :=
  listResize_map some l n v

theorem cmul_some {Point Scalar F : Type} (P : GadgetParams Point Scalar F)
    (p : Point) (l : List Bool) :
    cmul P (some p) (l.map some) = some (P.mulBits p l) := by
  simp [cmul]

/-! ### Evaluation of `synthesize` on fully bound and on all-absent
witness records -/

@[simp]
theorem hashInput_length {Point Scalar F : Type}
    (P : GadgetParams Point Scalar F) (r vk : Option Point)
    (msg : Option (List Nat)) : (hashInput P r vk msg).length = 768 := by
  simp [hashInput]

@[simp]
theorem sourcePreimage_length {Point Scalar F : Type}
    (P : GadgetParams Point Scalar F) (rv vkv : Point) (msg : List Nat) :
    (sourcePreimage P rv vkv msg).length = 768 := by
  simp [sourcePreimage]

theorem hashInput_bound {Point Scalar F : Type}
    (P : GadgetParams Point Scalar F) (rv vkv : Point) (msg : List Nat) :
    hashInput P (some rv) (some vkv) (some msg) =
      (sourcePreimage P rv vkv msg).map some := by
  simp only [hashInput, sourcePreimage, creprPoint, cMsgBits,
    listResize_map_some, ← List.map_append]

theorem synthesize_bound {Point Scalar F : Type} [Zero F] [One F]
    (P : GadgetParams Point Scalar F) (h512 : P.hashOutLen = 512)
    (rv : Point) (sv : Scalar) (vkv genv : Point) (msg : List Nat) :
    synthesize P (boundWitness rv sv vkv genv msg) =
      Except.ok (boundResult P rv sv vkv genv msg) := by
  simp only [synthesize, boundWitness, boundResult, shapeTrace, shapeWith,
    cwitness, creprScalar, cMsgBits, cneg, cadd, cdouble, cx, cy,
    hashInput_bound, chash_map_some, cmul_some, hstarBound, clearedPoint,
    combinedPoint, Option.map_some', listResize_length, chash_length,
    creprPoint_length, creprScalar_length, bytesToBitsLE_length,
    List.length_map, h512, P.hash_len, if_true]
  simp [cmul_some, P.reprScalar_len]

theorem synthesize_none {Point Scalar F : Type} [Zero F] [One F]
    (P : GadgetParams Point Scalar F) (h512 : P.hashOutLen = 512) :
    synthesize P (@noneWitness Point Scalar) =
      Except.ok (noneResult P) := by
  simp only [synthesize, noneWitness, noneResult, shapeTrace, shapeWith,
    cwitness, creprScalar, cMsgBits, cneg, cadd, cdouble, cx, cy, cmul,
    allSome, Option.map_none', listResize_length, chash_length,
    hashInput_length, creprPoint_length, creprScalar_length,
    List.length_replicate, h512, if_true]

theorem satisfiable_boundResult {Point Scalar F : Type} [DecidableEq F]
    [Zero F] [One F] (P : GadgetParams Point Scalar F) (rv : Point)
    (sv : Scalar) (vkv genv : Point) (msg : List Nat) :
    satisfiable P (boundResult P rv sv vkv genv msg) = true ↔
      (P.isOnCurve vkv = true ∧ P.isSmallOrder vkv = false ∧
       P.isOnCurve rv = true ∧ P.isOnCurve genv = true ∧
       P.px (clearedPoint P rv sv vkv genv msg) = 0 ∧
       P.py (clearedPoint P rv sv vkv genv msg) = 1) := by
  simp [satisfiable, boundResult, Constraint.holds, Bool.not_eq_true',
    and_assoc]

theorem addIter_add {Point Scalar F : Type} (P : GadgetParams Point Scalar F)
    (ha : ∀ a b c, P.add (P.add a b) c = P.add a (P.add b c)) (p : Point) :
    ∀ m n, P.add (addIter P m p) (addIter P n p) = addIter P (m + n + 1) p := by
  intro m
  induction m with
  | zero =>
    intro n
    simp only [addIter, Nat.zero_add]
  | succ k ih =>
    intro n
    have hk : k + 1 + n + 1 = (k + n + 1) + 1 := by omega
    rw [hk]
    show P.add (P.add p (addIter P k p)) (addIter P n p) =
      P.add p (addIter P (k + n + 1) p)
    rw [ha, ih]

theorem triple_double_eq_addIter {Point Scalar F : Type}
    (P : GadgetParams Point Scalar F)
    (hd : ∀ q, P.double q = P.add q q)
    (ha : ∀ a b c, P.add (P.add a b) c = P.add a (P.add b c)) (p : Point) :
    P.double (P.double (P.double p)) = addIter P 7 p := by
  have h1 : P.add p p = addIter P 1 p := rfl
  rw [hd p, h1]
  rw [show P.double (addIter P 1 p) = addIter P 3 p from by
    rw [hd, addIter_add P ha p 1 1]]
  rw [hd, addIter_add P ha p 3 3]

/-! ### The claims -/

/-- C1: For every bound witness (message hash, signature `(r, s)`, public
key `vk`, generator `G`) with on-curve points, the constraint set emitted
by `synthesize` is satisfiable if and only if the combined point
`h_star·vk + (−G)·s + r`, doubled three times (i.e. multiplied by the
cofactor 8), has x-coordinate `0` and y-coordinate `1` — the identity's
coordinates in the base field — and `vk` passes the not-small-order
assertion, where `h_star` is the in-circuit challenge hash of
`(r, vk, message)`. -/
theorem c1_satisfiable_iff_equation {Point Scalar F : Type} [DecidableEq F]
    [Zero F] [One F] (P : GadgetParams Point Scalar F)
    (h512 : P.hashOutLen = 512) (rv : Point) (sv : Scalar) (vkv genv : Point)
    (msg : List Nat) (hr : P.isOnCurve rv = true)
    (hvk : P.isOnCurve vkv = true) (hg : P.isOnCurve genv = true) :
    ∃ res, synthesize P (boundWitness rv sv vkv genv msg) = Except.ok res ∧
      (satisfiable P res = true ↔
        (P.px (clearedPoint P rv sv vkv genv msg) = 0 ∧
         P.py (clearedPoint P rv sv vkv genv msg) = 1 ∧
         P.isSmallOrder vkv = false)) := by
  refine ⟨_, synthesize_bound P h512 rv sv vkv genv msg, ?_⟩
  rw [satisfiable_boundResult]
  simp only [hr, hvk, hg, true_and]
  tauto

/-- Closed instance of C1 at the toy gadget instantiation. -/
theorem c1_satisfiable_iff_equation_witness :
    toyP.hashOutLen = 512 ∧ toyP.isOnCurve pA = true ∧
    toyP.isOnCurve pVK = true ∧ toyP.isOnCurve pG = true ∧
    (∃ res, synthesize toyP (boundWitness pA false pVK pG [7]) =
        Except.ok res ∧
      (satisfiable toyP res = true ↔
        (toyP.px (clearedPoint toyP pA false pVK pG [7]) = 0 ∧
         toyP.py (clearedPoint toyP pA false pVK pG [7]) = 1 ∧
         toyP.isSmallOrder pVK = false))) :=
  ⟨rfl, rfl, rfl, rfl,
    c1_satisfiable_iff_equation toyP rfl pA false pVK pG [7] rfl rfl rfl⟩

/-- C2: `synthesize` emits the not-small-order assertion for the public key
immediately after allocating it (the first two gadget calls), it is the
only small-order assertion in the whole circuit (in particular the
signature's `r` is allocated as a witness and inputized with no small-order
check), and for every small-order public-key value the emitted constraint
set is unsatisfiable regardless of all other witness values. -/
theorem c2_small_order_assertion {Point Scalar F : Type} [DecidableEq F]
    [Zero F] [One F] (P : GadgetParams Point Scalar F)
    (h512 : P.hashOutLen = 512) (rv : Point) (sv : Scalar) (vkv genv : Point)
    (msg : List Nat) :
    ∃ res, synthesize P (boundWitness rv sv vkv genv msg) = Except.ok res ∧
      res.shape.take 4 =
        [.witnessPoint "vk", .assertNotSmallOrder "vk not small order",
         .witnessPoint "r", .inputizePoint "inputize signature.r"] ∧
      res.shape.filter ShapeEvent.isAssertNSO =
        [.assertNotSmallOrder "vk not small order"] ∧
      (P.isSmallOrder vkv = true → satisfiable P res = false) := by
  refine ⟨_, synthesize_bound P h512 rv sv vkv genv msg, rfl, rfl, ?_⟩
  intro hso
  rcases Bool.eq_false_or_eq_true
      (satisfiable P (boundResult P rv sv vkv genv msg)) with h | h
  · rcases (satisfiable_boundResult P rv sv vkv genv msg).mp h with
      ⟨_, hfalse, _⟩
    rw [hso] at hfalse
    cases hfalse
  · exact h

/-- Closed instance of C2 at the toy gadget instantiation, with the
designated small-order point substituted as the public key. -/
theorem c2_small_order_assertion_witness :
    toyP.hashOutLen = 512 ∧
    (∃ res, synthesize toyP (boundWitness pA false pSO pG [7]) =
        Except.ok res ∧
      res.shape.take 4 =
        [.witnessPoint "vk", .assertNotSmallOrder "vk not small order",
         .witnessPoint "r", .inputizePoint "inputize signature.r"] ∧
      res.shape.filter ShapeEvent.isAssertNSO =
        [.assertNotSmallOrder "vk not small order"] ∧
      (toyP.isSmallOrder pSO = true → satisfiable toyP res = false)) :=
  ⟨rfl, c2_small_order_assertion toyP rfl pA false pSO pG [7]⟩

theorem listResize_eq_pad {α : Type} (l : List α) (n : Nat) (v : α)
    (h : l.length ≤ n) :
    listResize l n v = l ++ List.replicate (n - l.length) v := by
  rw [listResize, List.take_of_length_le h]

theorem specPreimage_eq_sourcePreimage {Point Scalar F : Type}
    (P : GadgetParams Point Scalar F) (hpr : P.pointReprLen ≤ 256)
    (rv vkv : Point) (msg : List Nat) (hm : msg.length ≤ 32) :
    specPreimage P rv vkv msg = sourcePreimage P rv vkv msg := by
  have h1 : (P.reprPoint rv).length ≤ 256 := by
    rw [P.reprPoint_len]; exact hpr
  have h2 : (listResize (P.reprPoint rv) 256 false ++ P.reprPoint vkv).length
      ≤ 512 := by
    simp only [List.length_append, listResize_length, P.reprPoint_len]
    omega
  have h3 : (listResize (listResize (P.reprPoint rv) 256 false ++
      P.reprPoint vkv) 512 false ++ bytesToBitsLE msg).length ≤ 768 := by
    simp only [List.length_append, listResize_length, bytesToBitsLE_length]
    omega
  unfold sourcePreimage
  rw [listResize_eq_pad _ _ _ h3, listResize_eq_pad _ _ _ h2,
    listResize_eq_pad _ _ _ h1]
  rfl

/-- C3: corrected.  For every fully bound witness whose message has at most
32 bytes (and with the point-serialization width at most 256 bits, as the
external gadget guarantees), the challenge `h_star` is the hash-gadget
output over the preimage built exactly as the claim describes — `r`'s bits
zero-padded to 256, then `vk`'s bits zero-padded so the buffer reaches 512,
then the message bytes expanded LSB-first per byte and zero-padded so the
buffer reaches 768 — under the fixed personalization tag, with output
exactly 512 bits.  For messages longer than 32 bytes the code truncates the
buffer to 768 bits instead of zero-padding (see the counterexample), so the
claim's universal form fails. -/
theorem c3_preimage_layout {Point Scalar F : Type} [Zero F] [One F]
    (P : GadgetParams Point Scalar F) (h512 : P.hashOutLen = 512)
    (hpr : P.pointReprLen ≤ 256) (rv : Point) (sv : Scalar)
    (vkv genv : Point) (msg : List Nat) (hm : msg.length ≤ 32) :
    ∃ res, synthesize P (boundWitness rv sv vkv genv msg) = Except.ok res ∧
      res.hstar = (P.hash (specPreimage P rv vkv msg) persBytes).map some ∧
      res.hstar.length = 512 := by
  refine ⟨_, synthesize_bound P h512 rv sv vkv genv msg, ?_, ?_⟩
  · show (hstarBound P rv vkv msg).map some = _
    rw [hstarBound, specPreimage_eq_sourcePreimage P hpr rv vkv msg hm]
  · show ((hstarBound P rv vkv msg).map some).length = 512
    simp [hstarBound, P.hash_len, h512]

/-- Closed instance of the corrected C3 at the toy gadget instantiation
with a one-byte message. -/
theorem c3_preimage_layout_witness :
    toyP.hashOutLen = 512 ∧ toyP.pointReprLen ≤ 256 ∧
    ([(7 : Nat)].length ≤ 32) ∧
    (∃ res, synthesize toyP (boundWitness pA false pVK pG [7]) =
        Except.ok res ∧
      res.hstar =
        (toyP.hash (specPreimage toyP pA pVK [7]) persBytes).map some ∧
      res.hstar.length = 512) :=
  ⟨rfl, by decide, by decide,
    c3_preimage_layout toyP rfl (by decide) pA false pVK pG [7] (by decide)⟩

set_option maxRecDepth 100000 in
/-- C3's counterexample: with a 33-byte message the code's buffer is the
768-bit truncation, not the zero-padded concatenation the claim describes,
and a hash that depends on its input length separates the two: the emitted
`h_star` differs from the hash of the claim's zero-padded preimage. -/
theorem c3_counterexample :
    ∃ res, synthesize toyP2
        (boundWitness pA false pVK pG (List.replicate 33 7)) =
        Except.ok res ∧
      res.hstar ≠
        (toyP2.hash (specPreimage toyP2 pA pVK (List.replicate 33 7))
          persBytes).map some := by
  refine ⟨_, synthesize_bound toyP2 rfl pA false pVK pG (List.replicate 33 7),
    ?_⟩
  decide

/-- C4: The combined point `h_star·vk + (−s·G) + r` is passed through the
doubling gadget exactly three times in succession (the only three doubling
events, immediately followed by the only two `enforce` events, closing the
trace); under the group laws for the external point operations the three
doublings equal multiplication by the cofactor 8 (`addIter P 7 p` is the
sum of 8 copies of `p`); and the two emitted equality constraints pin the
result's x-coordinate to the field's `0` and y-coordinate to the field's
`1`, both being necessary for satisfiability. -/
theorem c4_cofactor_clearing {Point Scalar F : Type} [DecidableEq F]
    [Zero F] [One F] (P : GadgetParams Point Scalar F)
    (h512 : P.hashOutLen = 512) (rv : Point) (sv : Scalar) (vkv genv : Point)
    (msg : List Nat) (hd : ∀ q, P.double q = P.add q q)
    (ha : ∀ a b c, P.add (P.add a b) c = P.add a (P.add b c)) :
    ∃ res, synthesize P (boundWitness rv sv vkv genv msg) = Except.ok res ∧
      res.shape.drop 16 =
        [.doublePoint "sig double", .doublePoint "sig times 4",
         .doublePoint "sig times 8", .enforceC "result to zero point x",
         .enforceC "result to zero point y"] ∧
      (res.shape.filter ShapeEvent.isDouble).length = 3 ∧
      (res.shape.filter ShapeEvent.isEnforce).length = 2 ∧
      clearedPoint P rv sv vkv genv msg =
        addIter P 7 (combinedPoint P rv sv vkv genv msg) ∧
      res.constraints.drop 4 =
        [.eqConst (some (P.px (clearedPoint P rv sv vkv genv msg))) 0,
         .eqConst (some (P.py (clearedPoint P rv sv vkv genv msg))) 1] ∧
      (satisfiable P res = true →
        P.px (clearedPoint P rv sv vkv genv msg) = 0 ∧
        P.py (clearedPoint P rv sv vkv genv msg) = 1) := by
  refine ⟨_, synthesize_bound P h512 rv sv vkv genv msg, rfl, rfl, rfl,
    ?_, rfl, ?_⟩
  · rw [clearedPoint,
      triple_double_eq_addIter P hd ha (combinedPoint P rv sv vkv genv msg)]
  · intro hs
    rcases (satisfiable_boundResult P rv sv vkv genv msg).mp hs with
      ⟨_, _, _, _, hx, hy⟩
    exact ⟨hx, hy⟩

/-- Closed instance of C4 at the toy gadget instantiation, whose point
operations satisfy the doubling and associativity laws. -/
theorem c4_cofactor_clearing_witness :
    toyP.hashOutLen = 512 ∧
    (∀ q, toyP.double q = toyP.add q q) ∧
    (∀ a b c, toyP.add (toyP.add a b) c = toyP.add a (toyP.add b c)) ∧
    (∃ res, synthesize toyP (boundWitness pA false pVK pG [7]) =
        Except.ok res ∧
      res.shape.drop 16 =
        [.doublePoint "sig double", .doublePoint "sig times 4",
         .doublePoint "sig times 8", .enforceC "result to zero point x",
         .enforceC "result to zero point y"] ∧
      (res.shape.filter ShapeEvent.isDouble).length = 3 ∧
      (res.shape.filter ShapeEvent.isEnforce).length = 2 ∧
      clearedPoint toyP pA false pVK pG [7] =
        addIter toyP 7 (combinedPoint toyP pA false pVK pG [7]) ∧
      res.constraints.drop 4 =
        [.eqConst (some (toyP.px (clearedPoint toyP pA false pVK pG [7]))) 0,
         .eqConst (some (toyP.py (clearedPoint toyP pA false pVK pG [7]))) 1] ∧
      (satisfiable toyP res = true →
        toyP.px (clearedPoint toyP pA false pVK pG [7]) = 0 ∧
        toyP.py (clearedPoint toyP pA false pVK pG [7]) = 1)) :=
  ⟨rfl, by decide, by decide,
    c4_cofactor_clearing toyP rfl pA false pVK pG [7] (by decide) (by decide)⟩

/-- C5: In the public-input-exposing variant embedded here, the public
input vector produced by `synthesize` on any bound witness is exactly the
ordered sequence `(r.x, r.y, s_packed)`: `r`'s two coordinates first, then
`s`'s bit serialization packed into a single field element, and nothing
else.  The scalar's fixed bit width fitting into one packing chunk (true of
the modeled protocol: 252 ≤ 254) is the hypothesis making the packing a
single element. -/
theorem c5_public_input_vector {Point Scalar F : Type} [Zero F] [One F]
    (P : GadgetParams Point Scalar F) (h512 : P.hashOutLen = 512)
    (hpos : 0 < P.scalarReprLen) (hcap : P.scalarReprLen ≤ P.packCapacity)
    (rv : Point) (sv : Scalar) (vkv genv : Point) (msg : List Nat) :
    ∃ res, synthesize P (boundWitness rv sv vkv genv msg) = Except.ok res ∧
      res.pubInputs =
        [some (P.px rv), some (P.py rv),
         some (P.packBits (P.reprScalar sv))] := by
  refine ⟨_, synthesize_bound P h512 rv sv vkv genv msg, ?_⟩
  show [some (P.px rv), some (P.py rv)] ++
      (chunkList P.packCapacity ((P.reprScalar sv).map some)).map (cpack P) =
    _
  rw [chunkList_eq_single]
  · simp [cpack]
  · have : ((P.reprScalar sv).map some).length = P.scalarReprLen := by
      simp [P.reprScalar_len]
    intro hnil
    rw [hnil] at this
    simp at this
    omega
  · simp [P.reprScalar_len, hcap]

/-- Closed instance of C5 at the toy gadget instantiation. -/
theorem c5_public_input_vector_witness :
    toyP.hashOutLen = 512 ∧ 0 < toyP.scalarReprLen ∧
    toyP.scalarReprLen ≤ toyP.packCapacity ∧
    (∃ res, synthesize toyP (boundWitness pA false pVK pG [7]) =
        Except.ok res ∧
      res.pubInputs =
        [some (toyP.px pA), some (toyP.py pA),
         some (toyP.packBits (toyP.reprScalar false))]) :=
  ⟨rfl, by decide, by decide,
    c5_public_input_vector toyP rfl (by decide) (by decide) pA false pVK pG
      [7]⟩

/-- C6: corrected.  The circuit shape (the gadget-call trace, which fixes
the number and structure of emitted constraints and allocated variables) of
a fully bound witness equals the SHAPE-mode trace (all witness fields
absent) exactly when the bound message is 32 bytes: every other trace
component is witness-independent, but the message gadget allocates one
boolean per message bit (8·length), against the fixed 256-bit block of the
unbound case, before the buffer is resized to 768 bits. -/
theorem c6_shape_bound_vs_unbound {Point Scalar F : Type} [Zero F] [One F]
    (P : GadgetParams Point Scalar F) (h512 : P.hashOutLen = 512)
    (rv : Point) (sv : Scalar) (vkv genv : Point) (msg : List Nat) :
    ((synthesize P (boundWitness rv sv vkv genv msg)).map SynthResult.shape =
      (synthesize P (@noneWitness Point Scalar)).map
        SynthResult.shape) ↔ msg.length = 32 := by
  rw [synthesize_bound P h512 rv sv vkv genv msg, synthesize_none P h512]
  show (Except.ok (shapeWith P (8 * msg.length)) :
      Except Failure (List ShapeEvent)) = Except.ok (shapeWith P 256) ↔ _
  simp only [Except.ok.injEq, shapeWith, List.cons.injEq, and_true,
    List.nil_eq, ShapeEvent.msgBits.injEq, true_and, and_self,
    ShapeEvent.witnessPoint.injEq, ShapeEvent.reprPoint.injEq]
  constructor
  · intro h
    omega
  · intro h
    omega

/-- Closed instance of the corrected C6 at the toy gadget instantiation
with a 32-byte message, where the two shapes do agree. -/
theorem c6_shape_bound_vs_unbound_witness :
    toyP.hashOutLen = 512 ∧
    (((synthesize toyP
          (boundWitness pA false pVK pG (List.replicate 32 0))).map
        SynthResult.shape =
      (synthesize toyP
          (@noneWitness (Fin 5 × Fin 5) Bool)).map
        SynthResult.shape) ↔ (List.replicate 32 (0 : Nat)).length = 32) :=
  ⟨rfl, c6_shape_bound_vs_unbound toyP rfl pA false pVK pG
    (List.replicate 32 0)⟩

set_option maxRecDepth 100000 in
/-- C6's counterexample: a fully bound witness with a 33-byte message
produces a different circuit shape (264 allocated message bits) from the
all-absent SHAPE mode (fixed 256-bit block), so the claim's universal form
fails. -/
theorem c6_counterexample :
    ∃ r1 r2,
      synthesize toyP (boundWitness pA false pVK pG (List.replicate 33 0)) =
        Except.ok r1 ∧
      synthesize toyP (@noneWitness (Fin 5 × Fin 5) Bool) =
        Except.ok r2 ∧
      r1.shape ≠ r2.shape := by
  refine ⟨_, _,
    synthesize_bound toyP rfl pA false pVK pG (List.replicate 33 0),
    synthesize_none toyP rfl, ?_⟩
  decide

/-- C7: The circuit entry point returns success or a (structural) failure
to its caller; the failure arises exactly when the hash gadget's fixed
output bit length differs from the expected 512
(`assert_eq!(h_star.len(), 512)`), a condition independent of every witness
value: any two witness records succeed or fail together. -/
theorem c7_structural_failure {Point Scalar F : Type} [Zero F] [One F]
    (P : GadgetParams Point Scalar F)
    (w : VerifySpendAuthoritySignatureDemo Point Scalar) :
    (synthesize P w = Except.error Failure.structural ↔ P.hashOutLen ≠ 512) ∧
    (∀ w', (∃ res, synthesize P w = Except.ok res) ↔
      (∃ res, synthesize P w' = Except.ok res)) := by
  constructor
  · by_cases h : P.hashOutLen = 512 <;> simp [synthesize, h]
  · intro w'
    by_cases h : P.hashOutLen = 512 <;> simp [synthesize, h]

/-- C8: Only `r`'s coordinates and `s` are bound to public inputs: the
public input vector is invariant under every change of message, public key
and generator (they are private witnesses with no constraint tying them to
a public input), and on a fully bound witness the emitted constraints
mention the public key, generator and message only through curve
membership, the small-order assertion and the final identity check — so
for a fixed public input vector, satisfiability quantifies existentially
over those private values. -/
theorem c8_private_witness_fields {Point Scalar F : Type} [Zero F] [One F]
    (P : GadgetParams Point Scalar F) (h512 : P.hashOutLen = 512) :
    (∀ (sig : SpendAuthoritySignature Point Scalar)
       (msg1 msg2 : Option (List Nat)) (vk1 vk2 g1 g2 : Option Point),
       (synthesize P ⟨msg1, sig, vk1, g1⟩).map SynthResult.pubInputs =
         (synthesize P ⟨msg2, sig, vk2, g2⟩).map SynthResult.pubInputs) ∧
    (∀ (rv : Point) (sv : Scalar) (vkv genv : Point) (msg : List Nat),
      ∃ res, synthesize P (boundWitness rv sv vkv genv msg) = Except.ok res ∧
        res.pubInputs = [some (P.px rv), some (P.py rv)] ++
          (chunkList P.packCapacity ((P.reprScalar sv).map some)).map
            (cpack P) ∧
        res.constraints =
          [.onCurve (some vkv), .notSmallOrder (some vkv),
           .onCurve (some rv), .onCurve (some genv),
           .eqConst (some (P.px (clearedPoint P rv sv vkv genv msg))) 0,
           .eqConst (some (P.py (clearedPoint P rv sv vkv genv msg))) 1]) := by
  constructor
  · intro sig m1 m2 vk1 vk2 g1 g2
    simp [synthesize, h512, Except.map]
  · intro rv sv vkv genv msg
    exact ⟨_, synthesize_bound P h512 rv sv vkv genv msg, rfl, rfl⟩

/-- Closed instance of C8 at the toy gadget instantiation. -/
theorem c8_private_witness_fields_witness :
    toyP.hashOutLen = 512 ∧
    ((∀ (sig : SpendAuthoritySignature (Fin 5 × Fin 5) Bool)
        (msg1 msg2 : Option (List Nat))
        (vk1 vk2 g1 g2 : Option (Fin 5 × Fin 5)),
        (synthesize toyP ⟨msg1, sig, vk1, g1⟩).map SynthResult.pubInputs =
          (synthesize toyP ⟨msg2, sig, vk2, g2⟩).map SynthResult.pubInputs) ∧
     (∀ (rv : Fin 5 × Fin 5) (sv : Bool) (vkv genv : Fin 5 × Fin 5)
        (msg : List Nat),
       ∃ res, synthesize toyP (boundWitness rv sv vkv genv msg) =
           Except.ok res ∧
         res.pubInputs = [some (toyP.px rv), some (toyP.py rv)] ++
           (chunkList toyP.packCapacity ((toyP.reprScalar sv).map some)).map
             (cpack toyP) ∧
         res.constraints =
           [.onCurve (some vkv), .notSmallOrder (some vkv),
            .onCurve (some rv), .onCurve (some genv),
            .eqConst (some (toyP.px (clearedPoint toyP rv sv vkv genv msg)))
              0,
            .eqConst (some (toyP.py (clearedPoint toyP rv sv vkv genv msg)))
              1])) :=
  ⟨rfl, c8_private_witness_fields toyP rfl⟩

theorem listResize768 {α : Type} (a b : List α) (v : α)
    (ha : a.length = 512) :
    listResize (a ++ b) 768 v = a ++ listResize b 256 v := by
  have h := listResize_append a b 768 512 v ha (by omega)
  simpa using h

/-- C9: Message bytes beyond the first 32 are silently discarded by the
`resize` to 768 bits: two witnesses that agree on everything except
message bytes at index 32 and beyond (same message length) produce exactly
the same emission — identical trace, constraints, public inputs and
challenge hash. -/
theorem c9_msg_truncation {Point Scalar F : Type} [Zero F] [One F]
    (P : GadgetParams Point Scalar F)
    (sig : SpendAuthoritySignature Point Scalar) (vk g : Option Point)
    (m1 m2 : List Nat) (hpre : m1.take 32 = m2.take 32)
    (hlen : m1.length = m2.length) :
    synthesize P ⟨some m1, sig, vk, g⟩ =
      synthesize P ⟨some m2, sig, vk, g⟩ := by
  have hbits : listResize (bytesToBitsLE m1) 256 false =
      listResize (bytesToBitsLE m2) 256 false := by
    unfold listResize
    rw [show (256 : Nat) = 8 * 32 from rfl, bytesToBitsLE_take,
      bytesToBitsLE_take, hpre, bytesToBitsLE_length, bytesToBitsLE_length,
      hlen]
  have hhi : hashInput P sig.r vk (some m1) =
      hashInput P sig.r vk (some m2) := by
    unfold hashInput
    rw [listResize768 _ _ _ (listResize_length _ _ _),
      listResize768 _ _ _ (listResize_length _ _ _)]
    congr 1
    rw [show cMsgBits (some m1) = (bytesToBitsLE m1).map some from rfl,
      show cMsgBits (some m2) = (bytesToBitsLE m2).map some from rfl,
      listResize_map_some, listResize_map_some, hbits]
  have hml : (cMsgBits (some m1)).length = (cMsgBits (some m2)).length := by
    simp [cMsgBits, hlen]
  simp only [synthesize, shapeTrace, cwitness]
  rw [hhi, hml]

/-- Closed instance of C9 at the toy gadget instantiation: two 33-byte
messages agreeing on their first 32 bytes yield identical emissions. -/
theorem c9_msg_truncation_witness :
    ((List.replicate 32 (0 : Nat) ++ [1]).take 32 =
      (List.replicate 32 (0 : Nat) ++ [2]).take 32) ∧
    ((List.replicate 32 (0 : Nat) ++ [1]).length =
      (List.replicate 32 (0 : Nat) ++ [2]).length) ∧
    synthesize toyP ⟨some (List.replicate 32 0 ++ [1]), ⟨some pA, some false⟩,
        some pVK, some pG⟩ =
      synthesize toyP ⟨some (List.replicate 32 0 ++ [2]), ⟨some pA, some false⟩,
        some pVK, some pG⟩ :=
  ⟨by decide, by decide,
    c9_msg_truncation toyP ⟨some pA, some false⟩ (some pVK) (some pG)
      (List.replicate 32 0 ++ [1]) (List.replicate 32 0 ++ [2]) (by decide)
      (by decide)⟩

/-- C10: The personalization tag handed to the challenge-hash gadget is the
fixed byte string `b"Zcash_RedJubjubH"` — exactly these 16 ASCII bytes —
identical for every invocation of the circuit, and it labels the unique
hash event of the trace (whose input is the fixed 768-bit buffer). -/
theorem c10_personalization_tag {Point Scalar F : Type} [Zero F] [One F]
    (P : GadgetParams Point Scalar F) (h512 : P.hashOutLen = 512)
    (w : VerifySpendAuthoritySignatureDemo Point Scalar) :
    ∃ res, synthesize P w = Except.ok res ∧
      res.shape.filter ShapeEvent.isHash =
        [.hashEv "blake2b hash" 768 persBytes] ∧
      persBytes =
        [90, 99, 97, 115, 104, 95, 82, 101, 100, 74, 117, 98, 106, 117, 98,
         72] ∧
      persBytes.length = 16 ∧ (∀ b ∈ persBytes, b < 128) := by
  simp only [synthesize, chash_length, h512, if_true]
  refine ⟨_, rfl, ?_, by decide, by decide, by decide⟩
  simp [shapeTrace, ShapeEvent.isHash, hashInput_length, List.filter]

/-- Closed instance of C10 at the toy gadget instantiation, on the
SHAPE-mode invocation. -/
theorem c10_personalization_tag_witness :
    toyP.hashOutLen = 512 ∧
    (∃ res, synthesize toyP
          (@noneWitness (Fin 5 × Fin 5) Bool) =
        Except.ok res ∧
      res.shape.filter ShapeEvent.isHash =
        [.hashEv "blake2b hash" 768 persBytes] ∧
      persBytes =
        [90, 99, 97, 115, 104, 95, 82, 101, 100, 74, 117, 98, 106, 117, 98,
         72] ∧
      persBytes.length = 16 ∧ (∀ b ∈ persBytes, b < 128)) :=
  ⟨rfl, c10_personalization_tag toyP rfl noneWitness⟩

end SpendAuth
